import Mathlib

/-!
Shallow embedding of the email-candidate generation and verification engine
of `src/dashboard.py` (class `LinkedInDashboard`), together with theorems
settling the specification claims about it.

Python strings are modelled as `List Char` (`Str`).  Case mapping follows
`Char.toLower` (basic-latin letters), which matches `str.lower` on the ASCII
inputs the program manipulates.  Network effects (DNS, SMTP, HTTP) are
modelled by explicit environment values supplied to each function.
-/

/-- A Python string, modelled as its sequence of characters. -/
abbrev Str := List Char

/-- Python `s.lower()` (basic-latin case mapping). -/
def lowerStr (s : Str) : Str := s.map Char.toLower

/-- A string is entirely lower-cased: it contains no upper-case letter. -/
def isLowerStr (s : Str) : Bool := s.all (fun c => !c.isUpper)

/-- Python `domain.replace('www.', '')`: remove every (non-overlapping,
left-to-right) occurrence of the substring `www.`. -/
def stripwww : Str → Str
  | 'w' :: 'w' :: 'w' :: '.' :: rest => stripwww rest
  | c :: rest => c :: stripwww rest
  | [] => []

/-- Python `s.split(sep)` for a one-character separator and no maxsplit:
`''.split(sep) = ['']`, and a separator at either end produces an empty part. -/
def pySplit (sep : Char) : Str → List Str
  | [] => [[]]
  | c :: rest =>
    if c = sep then [] :: pySplit sep rest
    else
      match pySplit sep rest with
      | [] => [[c]]
      | p :: ps => (c :: p) :: ps

/-- Python `s.rpartition('.')`, keeping only the head and tail components:
split at the last `'.'`; when there is none, return `("", s)`. -/
def rpartitionDot (s : Str) : Str × Str :=
  match s.reverse.span (fun c => c ≠ '.') with
  | (_, []) => ([], s)
  | (tldRev, _dot :: headRev) => (headRev.reverse, tldRev.reverse)

/-- Python `s.strip()`: drop leading and trailing whitespace. -/
def pyStrip (s : Str) : Str :=
  ((s.dropWhile Char.isWhitespace).reverse.dropWhile Char.isWhitespace).reverse

/-- Python `hay.find(needle)` restricted to a found result:
the least index at which `needle` occurs in `hay`, if any. -/
def firstIdx (needle hay : Str) : Option Nat :=
  (List.range (hay.length + 1)).findSome?
    (fun i => if needle.isPrefixOf (hay.drop i) then some i else none)

/-- Python `needle in hay` (substring containment). -/
def containsSub (hay needle : Str) : Bool := (firstIdx needle hay).isSome

/-- Candidate generation: lines 437–472 of `generate_email_permutations`
(the emptiness guard, the `www.`-strip, the lower-casing of the two names,
and the 12 fixed pattern templates, in source order). -/
def generate_candidates (first_name last_name domain : Str) : List Str :=
  if first_name.isEmpty || last_name.isEmpty || domain.isEmpty then []
  else
    let domain := stripwww domain
    let first_lower := lowerStr first_name
    let last_lower := lowerStr last_name
    match first_lower, last_lower with
    | f0 :: ftl, l0 :: ltl =>
      let first_lower := f0 :: ftl
      let last_lower := l0 :: ltl
      let f : Str := [f0]
      let l : Str := [l0]
      [ first_lower ++ last_lower ++ '@' :: domain
      , f ++ last_lower ++ '@' :: domain
      , first_lower ++ '.' :: last_lower ++ '@' :: domain
      , first_lower ++ '_' :: last_lower ++ '@' :: domain
      , last_lower ++ first_lower ++ '@' :: domain
      , first_lower ++ l ++ '@' :: domain
      , f ++ '.' :: last_lower ++ '@' :: domain
      , last_lower ++ '.' :: first_lower ++ '@' :: domain
      , l ++ first_lower ++ '@' :: domain
      , last_lower ++ f ++ '@' :: domain
      , first_lower ++ '.' :: l ++ '@' :: domain
      , last_lower ++ '.' :: f ++ '@' :: domain ]
    | _, _ => []  -- unreachable: `lowerStr` preserves length and both names are non-empty

/-- The spec's fixed template list (§4.1), stated from the spec's words:
full-first+full-last, initial+last, first.last, first_last, last+first,
first+initial, initial.last, last.first, initial+first, last+initial,
first.initial, last.initial — applied to already-lowered names and a given
domain.  This definition is the spec-side reference for the refinement
comparison in claim C1. -/
def specTemplates (fi la dom : Str) : List Str :=
  match fi, la with
  | f0 :: ftl, l0 :: ltl =>
    let fi := f0 :: ftl
    let la := l0 :: ltl
    let f : Str := [f0]
    let l : Str := [l0]
    [ fi ++ la ++ '@' :: dom
    , f ++ la ++ '@' :: dom
    , fi ++ '.' :: la ++ '@' :: dom
    , fi ++ '_' :: la ++ '@' :: dom
    , la ++ fi ++ '@' :: dom
    , fi ++ l ++ '@' :: dom
    , f ++ '.' :: la ++ '@' :: dom
    , la ++ '.' :: fi ++ '@' :: dom
    , l ++ fi ++ '@' :: dom
    , la ++ f ++ '@' :: dom
    , fi ++ '.' :: l ++ '@' :: dom
    , la ++ '.' :: f ++ '@' :: dom ]
  | _, _ => []

/-! ### Verification cascade (`verify_email_syntax` / `verify_mx_record` / `verify_smtp` / `verify_email`) -/

/-- The value `verify_smtp` returns: either a Python boolean (`True`/`False`)
or one of the strings `"Inconclusive"` / `"Error"` / `"Not attempted"`. -/
inductive SmtpRet where
  | bool (b : Bool)
  | str (s : Str)
deriving DecidableEq

/-- Environment for one SMTP probe: either the whole
resolve/connect/EHLO/MAIL/RCPT/QUIT sequence completes and yields the RCPT
response code, or some step raises an exception whose message is `detail`. -/
inductive SmtpEnv where
  | ok (code : Nat)
  | exc (detail : Str)
deriving DecidableEq

/-- `verify_smtp` (dashboard.py lines 141–186): map the RCPT response code —
250 ⇒ `True`, 550/553 ⇒ `False`, anything else ⇒ `"Inconclusive"`; any
exception anywhere in the probe ⇒ the bare string `"Error"` (the exception's
text is only written to the UI log, not returned). -/
def verify_smtp : SmtpEnv → SmtpRet
  | .exc _ => .str "Error".toList
  | .ok code =>
    if code = 250 then .bool true
    else if code = 550 ∨ code = 553 then .bool false
    else .str "Inconclusive".toList

/-- The `results` dict built by `verify_email`.  The Python key `'syntax'` is
spelled `syn` here (`syntax` is reserved in Lean). -/
structure VerifyResults where
  syn : Bool
  mx_record : Bool
  smtp : SmtpRet
deriving DecidableEq

/-- Environment for one full cascade run: the outcome of the syntax check
(`verify_email_syntax` returns a boolean, catching parse errors), the outcome
of the MX lookup (`verify_mx_record` returns a boolean, any resolver error
counted as `false`), and the SMTP probe environment. -/
structure CascadeEnv where
  synOk : Bool
  mxOk : Bool
  smtp : SmtpEnv
deriving DecidableEq

/-- `verify_email` (dashboard.py lines 188–222): run syntax, MX, SMTP in
order, returning early with the partially-filled `results` dict when syntax
or MX fails.  The second component records whether `verify_smtp` was
invoked. -/
def verify_email (e : CascadeEnv) : VerifyResults × Bool :=
  let results : VerifyResults :=
    { syn := false, mx_record := false, smtp := .str "Not attempted".toList }
  let results := { results with syn := e.synOk }
  if e.synOk = false then (results, false)
  else
    let results := { results with mx_record := e.mxOk }
    if e.mxOk = false then (results, false)
    else ({ results with smtp := verify_smtp e.smtp }, true)

/-! ### Kickbox backend (`verify_email_kickbox`) -/

/-- The JSON payload of a Kickbox response, as the dict `.get` calls see it:
a field is `none` when the key is absent.  `sendex` is a numeric score; its
arithmetic is never used, so its representation is immaterial. -/
structure KickboxPayload where
  result : Option Str
  reason : Option Str
  did_you_mean : Option Str
  success : Option Bool
  disposable : Option Bool
  accept_all : Option Bool
  role : Option Bool
  free : Option Bool
  sendex : Option Int
deriving DecidableEq

/-- The dict `verify_email_kickbox` returns on the non-`None` path. -/
structure KickboxReport where
  result : Option Str
  reason : Option Str
  did_you_mean : Option Str
  success : Bool
  disposable : Bool
  accept_all : Bool
  role : Bool
  free : Bool
  score : Int
deriving DecidableEq

/-- Outcome of the `requests.get` call: either it raises, or it yields a
response with a status code and a body; `body = none` means the body is not
valid JSON, so `response.json()` raises. -/
inductive KickboxHttp where
  | exc (detail : Str)
  | resp (status : Nat) (body : Option KickboxPayload)
deriving DecidableEq

/-- Environment for one Kickbox verification: whether the API key is present
in the secrets store, and the HTTP outcome. -/
structure KickboxEnv where
  hasApiKey : Bool
  http : KickboxHttp
deriving DecidableEq

/-- `verify_email_kickbox` (dashboard.py lines 224–264): `None` when the API
key is missing or any exception is raised (request failure, or `.json()` on a
malformed body); otherwise build the report dict from the payload with the
source's `.get` defaults.  The HTTP status code is never inspected. -/
def verify_email_kickbox (env : KickboxEnv) : Option KickboxReport :=
  if env.hasApiKey = false then none
  else
    match env.http with
    | .exc _ => none
    | .resp _status body =>
      match body with
      | none => none
      | some p =>
        some { result := p.result
             , reason := p.reason
             , did_you_mean := p.did_you_mean
             , success := p.success.getD false
             , disposable := p.disposable.getD false
             , accept_all := p.accept_all.getD false
             , role := p.role.getD false
             , free := p.free.getD false
             , score := p.sendex.getD 0 }

/-! ### BrightData search-corroboration backend (`verify_email_brightdata`) -/

/-- One Google result container (`div.g`) as the scraper sees it after the
script/style strip: its visible text, its `h3` title text (if any), and its
first link's href (if any). -/
structure SerpBlock where
  text : Str
  title : Option Str
  url : Option Str
deriving DecidableEq

/-- The `match_info` dict appended to `exact_matches`. -/
structure MatchInfo where
  email : Str
  context : Str
  search_url : Str
  result_title : Option Str
  result_url : Option Str
  query_used : Str
deriving DecidableEq

/-- The dict returned by `verify_email_brightdata` on the non-`None` path. -/
structure BrightReport where
  exact_match : Bool
  exact_match_details : List MatchInfo
  search_url : Str
deriving DecidableEq

/-- Outcome of the HTTP request for one query: either it (or the subsequent
parsing machinery) raises — aborting the whole function into its outer
`except` — or it yields a status code together with the parsed result
blocks of the response body. -/
inductive QueryResponse where
  | exc (detail : Str)
  | http (status : Nat) (blocks : List SerpBlock)

/-- Environment for one BrightData verification: whether the API key is
present, and the network's response to each query string. -/
structure BrightEnv where
  hasApiKey : Bool
  respond : Str → QueryResponse

/-- The constructed search URL for a query.  The source percent-encodes the
query (`requests.utils.quote`); the encoding is injective and never inspected
afterwards, so the query is embedded directly here. -/
def searchUrl (q : Str) : Str := "https://www.google.com/search?q=".toList ++ q

/-- The four "no results" disclaimer phrases skipped by the scanner. -/
def disclaimerPhrases : List Str :=
  [ "no results found for".toList
  , "did you mean".toList
  , "search instead for".toList
  , "showing results for".toList ]

/-- A result text is a disclaimer when it contains any of the phrases. -/
def isDisclaimer (result_text : Str) : Bool :=
  disclaimerPhrases.any (fun p => containsSub result_text p)

/-- The inner `for result in search_results` loop: lower the block text, skip
disclaimers, and when the lowered email occurs in it, record the ±50-character
context window (stripped) together with title/url/query, deduplicating
against the accumulated matches.  The source checks `email.lower() in
result_text` and then calls `result_text.find(...)`; both are fused into one
`firstIdx` lookup here (the membership test succeeds iff `find` succeeds). -/
def processBlocks (email query su : Str) : List SerpBlock → List MatchInfo → List MatchInfo
  | [], acc => acc
  | b :: rest, acc =>
    let result_text := lowerStr b.text
    if isDisclaimer result_text then processBlocks email query su rest acc
    else
      match firstIdx (lowerStr email) result_text with
      | none => processBlocks email query su rest acc
      | some start_idx =>
        let a := start_idx - 50
        let bnd := min result_text.length (start_idx + email.length + 50)
        let context := pyStrip ((result_text.drop a).take (bnd - a))
        let match_info : MatchInfo :=
          { email := email, context := context, search_url := su
          , result_title := b.title, result_url := b.url, query_used := query }
        let acc := if acc.contains match_info then acc else acc ++ [match_info]
        processBlocks email query su rest acc

/-- The `for query in queries` loop.  Returns the list of queries for which a
request was issued, and — unless an exception aborted the function — the
accumulated matches together with the last constructed `search_url`.
Mirrors the source's control flow: a non-200 response or an empty block list
falls through to the next query; reaching the end of a non-empty block list
with a non-empty cumulative `exact_matches` breaks out of the loop. -/
def runQueries (env : BrightEnv) (email : Str) :
    List Str → List MatchInfo → Str → List Str × Option (List MatchInfo × Str)
  | [], acc, lastUrl => ([], some (acc, lastUrl))
  | q :: rest, acc, _lastUrl =>
    let su := searchUrl q
    match env.respond q with
    | .exc _ => ([q], none)
    | .http status blocks =>
      if status = 200 then
        if blocks.isEmpty then
          let r := runQueries env email rest acc su
          (q :: r.1, r.2)
        else
          let acc := processBlocks email q su blocks acc
          if acc.isEmpty then
            let r := runQueries env email rest acc su
            (q :: r.1, r.2)
          else ([q], some (acc, su))
      else
        let r := runQueries env email rest acc su
        (q :: r.1, r.2)

/-- The first query: `f'"{email}"'`. -/
def brightQuery1 (email : Str) : Str := '"' :: email ++ ['"']

/-- The second query: `f'"{first_name} {last_name}" "{email}"'`. -/
def brightQuery2 (first_name last_name email : Str) : Str :=
  '"' :: (first_name ++ ' ' :: last_name) ++ '"' :: ' ' :: '"' :: email ++ ['"']

/-- `verify_email_brightdata` (dashboard.py lines 319–433): `None` when the
API key is missing or an exception aborts the try-block; otherwise run the
two queries in order and build the report.  The second component instruments
the run with the list of queries actually issued.  The source also receives
`domain` and `title` arguments; neither is used in the body, so they are
omitted here. -/
def verify_email_brightdata (env : BrightEnv) (first_name last_name email : Str) :
    Option BrightReport × List Str :=
  if env.hasApiKey = false then (none, [])
  else
    let q1 := brightQuery1 email
    let q2 := brightQuery2 first_name last_name email
    -- the initial `lastUrl` is irrelevant: the query list is non-empty
    match runQueries env email [q1, q2] [] (searchUrl q1) with
    | (issued, none) => (none, issued)
    | (issued, some (exact_matches, lastUrl)) =>
      (some { exact_match := decide (exact_matches.length > 0)
            , exact_match_details := exact_matches
            , search_url := lastUrl }, issued)

/-! ### Obfuscation matcher (`check_for_email_variants`) -/

/-- One element of a verification regex.  The five patterns the source builds
are concatenations of escaped literals (`re.escape(...)`), `\s*` gaps, and
alternations of escaped literals (`(?:@|\[at\]|\(at\))`, `(?:\.|\[dot\]|\(dot\))`),
so this little language captures them exactly. -/
inductive PatItem where
  | lit (s : Str)
  | ws
  | alt (opts : List Str)
deriving DecidableEq

/-- Lower-case all literal text of a pattern (the model of `re.IGNORECASE`:
match the lowered pattern against the lowered text). -/
def lowerPatItem : PatItem → PatItem
  | .lit s => .lit (lowerStr s)
  | .ws => .ws
  | .alt opts => .alt (opts.map lowerStr)

/-- Match a pattern against a prefix of `s`, returning the number of
characters consumed by the leftmost-preferred match (Python `re` backtracking
order: `\s*` is greedy, alternatives are tried left to right). -/
def matchItems : List PatItem → Str → Option Nat
  | [], _ => some 0
  | .lit l :: rest, s =>
    if l.isPrefixOf s then (matchItems rest (s.drop l.length)).map (fun m => l.length + m)
    else none
  | .ws :: rest, s =>
    let k := (s.takeWhile Char.isWhitespace).length
    ((List.range (k + 1)).reverse).findSome?
      (fun j => (matchItems rest (s.drop j)).map (fun m => j + m))
  | .alt opts :: rest, s =>
    opts.findSome?
      (fun o =>
        if o.isPrefixOf s then (matchItems rest (s.drop o.length)).map (fun m => o.length + m)
        else none)

/-- `re.search(pattern, text, re.IGNORECASE)`: try each start position from
the left; at the first position where the pattern matches, return the start
index and the consumed length (so `group(0)` is that slice of `text`). -/
def reSearch (pat : List PatItem) (text : Str) : Option (Nat × Nat) :=
  let lpat := pat.map lowerPatItem
  let ltext := lowerStr text
  (List.range (ltext.length + 1)).findSome?
    (fun i => (matchItems lpat (ltext.drop i)).map (fun m => (i, m)))

/-- The dict returned on a match: the pattern that fired and `match.group(0)`. -/
structure MatchResult where
  pattern : List PatItem
  matched_text : Str
deriving DecidableEq

/-- Try the pattern families in order; return the first that matches. -/
def firstMatch (text : Str) : List (List PatItem) → Option MatchResult
  | [] => none
  | p :: rest =>
    match reSearch p text with
    | some (i, m) => some { pattern := p, matched_text := (text.drop i).take m }
    | none => firstMatch text rest

/-- The `@`-alternation `(?:@|\[at\]|\(at\))`. -/
def atAlt : PatItem := .alt ["@".toList, "[at]".toList, "(at)".toList]

/-- The `.`-alternation `(?:\.|\[dot\]|\(dot\))`. -/
def dotAlt : PatItem := .alt [".".toList, "[dot]".toList, "(dot)".toList]

/-- The five pattern families of `check_for_email_variants`, in source order,
built from the already-split email (`loc@domain`), the domain split at its
last dot, and the caller's names.  `f0` is `first_name[0]`. -/
def variantPatterns (email loc domain domain_part tld first_name last_name : Str)
    (f0 : Char) : List (List PatItem) :=
  [ [ .lit email ]
  , [ .lit loc, .ws, atAlt, .ws, .lit domain ]
  , [ .lit loc, .ws, atAlt, .ws, .lit domain_part, .ws, dotAlt, .ws, .lit tld ]
  , [ .lit (first_name ++ '.' :: last_name), .ws, atAlt, .ws, .lit domain ]
  , [ .lit (f0 :: last_name), .ws, atAlt, .ws, .lit domain ] ]

/-- The exceptions `check_for_email_variants` can raise: `ValueError` from
unpacking `email.split("@")` into two names, and `IndexError` from
`first_name[0]`. -/
inductive PyError where
  | valueError
  | indexError
deriving DecidableEq

/-- `check_for_email_variants` (dashboard.py lines 297–317): split the email
at `"@"` (raising unless that yields exactly two parts), split the domain at
its last dot, build the five pattern families (raising if `first_name` is
empty), and return the first family that matches the text, or `None`. -/
def check_for_email_variants (text email first_name last_name : Str) :
    Except PyError (Option MatchResult) :=
  match pySplit '@' email with
  | [loc, domain] =>
    let (domain_part, tld) := rpartitionDot domain
    match first_name with
    | [] => .error .indexError
    | f0 :: _ =>
      .ok (firstMatch text
        (variantPatterns email loc domain domain_part tld first_name last_name f0))
  | _ => .error .valueError

/-! ### Batch runner (`generate_email_permutations`, verification loop) -/

/-- The `verification` value of one report: the cascade's results dict, the
`{'error': str(e)}` dict recorded when a cascade future raises, or the
(possibly `None`) result of one of the two API backends. -/
inductive Verification where
  | cascade (r : VerifyResults)
  | cascadeError (msg : Str)
  | kickbox (r : Option KickboxReport)
  | brightdata (r : Option BrightReport)
deriving DecidableEq

/-- One entry of `verified_patterns`: `{'email': ..., 'verification': ...}`. -/
structure Report where
  email : Str
  verification : Verification
deriving DecidableEq

/-- The cascade (default) branch of the verification loop.  The source
submits `verify_email` for each candidate to a two-worker pool, keyed in a
dict in candidate order, then collects `future.result()` in that same
insertion order, converting a raised exception into an `{'error': ...}`
report.  Each task is independent, so the batch is the in-order image of a
per-candidate oracle that either yields the cascade environment the task saw
or raises with a message. -/
def runBatchCascade (oracle : Str → Except Str CascadeEnv) (emails : List Str) :
    List Report :=
  emails.map (fun e =>
    { email := e
    , verification :=
        match oracle e with
        | .ok env => .cascade (verify_email env).1
        | .error msg => .cascadeError msg })

/-- The Kickbox branch of the verification loop: a sequential `for` over the
candidates, one report each. -/
def runBatchKickbox (env : Str → KickboxEnv) (emails : List Str) : List Report :=
  emails.map (fun e =>
    { email := e, verification := .kickbox (verify_email_kickbox (env e)) })

/-- The BrightData branch of the verification loop: a sequential `for` over
the candidates, one report each. -/
def runBatchBrightdata (env : Str → BrightEnv) (first_name last_name : Str)
    (emails : List Str) : List Report :=
  emails.map (fun e =>
    { email := e
    , verification := .brightdata (verify_email_brightdata (env e) first_name last_name e).1 })

/-- The network environments for one whole batch, one per backend. -/
structure BatchEnv where
  cascade : Str → Except Str CascadeEnv
  kickbox : Str → KickboxEnv
  bright : Str → BrightEnv

/-- `generate_email_permutations` (dashboard.py lines 435–520): generate the
candidates, then verify them under the backend selected by the two flags
(`use_brightdata` first, then `use_kickbox`, else the threaded cascade). -/
def generate_email_permutations (env : BatchEnv) (first_name last_name domain : Str)
    (use_kickbox use_brightdata : Bool) : List Report :=
  let email_patterns := generate_candidates first_name last_name domain
  if use_brightdata then runBatchBrightdata env.bright first_name last_name email_patterns
  else if use_kickbox then runBatchKickbox env.kickbox email_patterns
  else runBatchCascade env.cascade email_patterns

/-! ### Helper lemmas -/

theorem char_toNat_ofNat_valid (n : Nat) (h : n.isValidChar) : (Char.ofNat n).toNat = n := by
  simp [Char.ofNat, dif_pos h, Char.ofNatAux, Char.toNat, UInt32.toNat]

theorem char_isUpper_iff (c : Char) : c.isUpper = true ↔ 65 ≤ c.toNat ∧ c.toNat ≤ 90 := by
  simp only [Char.isUpper, Bool.and_eq_true, decide_eq_true_eq, ge_iff_le,
    UInt32.le_def, BitVec.le_def]
  exact ⟨fun ⟨h1, h2⟩ => ⟨h1, h2⟩, fun ⟨h1, h2⟩ => ⟨h1, h2⟩⟩

theorem isUpper_toLower (c : Char) : (Char.toLower c).isUpper = false := by
  simp only [Char.toLower]
  split
  · rename_i h
    have hvalid : (c.toNat + 32).isValidChar := by
      rcases h with ⟨_, h2⟩
      exact Or.inl (by omega)
    by_contra hne
    have hup : (Char.ofNat (c.toNat + 32)).isUpper = true := by
      revert hne
      cases (Char.ofNat (c.toNat + 32)).isUpper <;> simp
    have hrange := (char_isUpper_iff _).mp hup
    rw [char_toNat_ofNat_valid _ hvalid] at hrange
    rcases h with ⟨h1, _⟩
    omega
  · rename_i h
    by_contra hne
    have hup : c.isUpper = true := by
      revert hne
      cases c.isUpper <;> simp
    have hrange := (char_isUpper_iff _).mp hup
    exact h ⟨hrange.1, hrange.2⟩

theorem isLowerStr_lowerStr (s : Str) : isLowerStr (lowerStr s) = true := by
  simp only [isLowerStr, lowerStr, List.all_eq_true, List.mem_map]
  rintro c ⟨a, _, rfl⟩
  simp [isUpper_toLower]

/-- Every spec template instantiated with lower-cased name material is a
lower-cased local part followed by `'@'` and the domain. -/
theorem specTemplates_shape (fi la dom : Str) (hfi : isLowerStr fi = true)
    (hla : isLowerStr la = true) (hf : fi ≠ []) (hl : la ≠ []) :
    ∀ c ∈ specTemplates fi la dom, ∃ lp, c = lp ++ '@' :: dom ∧ isLowerStr lp = true := by
  match fi, la with
  | f0 :: ft, l0 :: lt =>
    have hf0 : (!Char.isUpper f0) = true := by
      simp only [isLowerStr, List.all_cons, Bool.and_eq_true] at hfi
      exact hfi.1
    have hl0 : (!Char.isUpper l0) = true := by
      simp only [isLowerStr, List.all_cons, Bool.and_eq_true] at hla
      exact hla.1
    intro c hc
    simp only [specTemplates, List.mem_cons, List.not_mem_nil, or_false] at hc
    rcases hc with rfl | rfl | rfl | rfl | rfl | rfl | rfl | rfl | rfl | rfl | rfl | rfl
    · exact ⟨(f0 :: ft) ++ (l0 :: lt), by simp, by
        simp only [isLowerStr, List.all_append] at *
        simp [hfi, hla]⟩
    · exact ⟨[f0] ++ (l0 :: lt), by simp, by
        simp only [isLowerStr, List.all_append, List.all_cons, List.all_nil] at *
        simp [hf0, hla]⟩
    · exact ⟨(f0 :: ft) ++ '.' :: (l0 :: lt), by simp, by
        simp only [isLowerStr, List.all_append, List.all_cons] at *
        simp [hfi, hla]⟩
    · exact ⟨(f0 :: ft) ++ '_' :: (l0 :: lt), by simp, by
        simp only [isLowerStr, List.all_append, List.all_cons] at *
        simp [hfi, hla]⟩
    · exact ⟨(l0 :: lt) ++ (f0 :: ft), by simp, by
        simp only [isLowerStr, List.all_append] at *
        simp [hfi, hla]⟩
    · exact ⟨(f0 :: ft) ++ [l0], by simp, by
        simp only [isLowerStr, List.all_append, List.all_cons, List.all_nil] at *
        simp [hfi, hl0]⟩
    · exact ⟨[f0] ++ '.' :: (l0 :: lt), by simp, by
        simp only [isLowerStr, List.all_append, List.all_cons, List.all_nil] at *
        simp [hf0, hla]⟩
    · exact ⟨(l0 :: lt) ++ '.' :: (f0 :: ft), by simp, by
        simp only [isLowerStr, List.all_append, List.all_cons] at *
        simp [hfi, hla]⟩
    · exact ⟨[l0] ++ (f0 :: ft), by simp, by
        simp only [isLowerStr, List.all_append, List.all_cons, List.all_nil] at *
        simp [hl0, hfi]⟩
    · exact ⟨(l0 :: lt) ++ [f0], by simp, by
        simp only [isLowerStr, List.all_append, List.all_cons, List.all_nil] at *
        simp [hla, hf0]⟩
    · exact ⟨(f0 :: ft) ++ '.' :: [l0], by simp, by
        simp only [isLowerStr, List.all_append, List.all_cons, List.all_nil] at *
        simp [hfi, hl0]⟩
    · exact ⟨(l0 :: lt) ++ '.' :: [f0], by simp, by
        simp only [isLowerStr, List.all_append, List.all_cons, List.all_nil] at *
        simp [hla, hf0]⟩

/-! ### Claim C1 -/

/-- C1 counterexample: with domain `"Example.com"` the first candidate is
`"johndoe@Example.com"`, which is not entirely lower-cased (the claim's
normalization would give `"example.com"`); and with domain `"x.www.y.com"`
the first candidate is `"jodo@x.y.com"`, showing that `"www."` is removed
everywhere, not just at the front, so it differs from the claim's normalized
domain `"x.www.y.com"`. -/
theorem C1_counterexample :
    (generate_candidates "John".toList "Doe".toList "Example.com".toList).head?
      = some "johndoe@Example.com".toList
    ∧ isLowerStr "johndoe@Example.com".toList = false
    ∧ (generate_candidates "Jo".toList "Do".toList "x.www.y.com".toList).head?
      = some "jodo@x.y.com".toList
    ∧ "jodo@x.y.com".toList ≠ "jodo@x.www.y.com".toList :=
  ⟨rfl, rfl, rfl, by decide⟩

/-- C1 (amended): for every non-empty first name, last name and domain, the
candidate generator returns exactly the 12 spec templates in the fixed
template order, built from the lower-cased names and the code-normalized
domain — where normalization removes every occurrence of `"www."` and leaves
the domain's case unchanged; every candidate is a lower-cased local part
followed by `'@'` and that normalized domain. -/
theorem C1_generator_amended (first_name last_name domain : Str)
    (hf : first_name ≠ []) (hl : last_name ≠ []) (hd : domain ≠ []) :
    generate_candidates first_name last_name domain
      = specTemplates (lowerStr first_name) (lowerStr last_name) (stripwww domain)
    ∧ (generate_candidates first_name last_name domain).length = 12
    ∧ ∀ c ∈ generate_candidates first_name last_name domain,
        ∃ lp, c = lp ++ '@' :: stripwww domain ∧ isLowerStr lp = true := by
  match first_name, last_name, domain with
  | fc :: ft, lc :: lt, dc :: dt =>
    have heq : generate_candidates (fc :: ft) (lc :: lt) (dc :: dt)
        = specTemplates (lowerStr (fc :: ft)) (lowerStr (lc :: lt)) (stripwww (dc :: dt)) := by
      simp [generate_candidates, specTemplates, lowerStr]
    refine ⟨heq, ?_, ?_⟩
    · rw [heq]
      simp [specTemplates, lowerStr]
    · rw [heq]
      exact specTemplates_shape _ _ _ (isLowerStr_lowerStr _) (isLowerStr_lowerStr _)
        (by simp [lowerStr]) (by simp [lowerStr])

/-- C1 witness: the amended theorem applied at a concrete input. -/
theorem C1_generator_amended_witness :
    generate_candidates "John".toList "Doe".toList "Example.com".toList
      = specTemplates (lowerStr "John".toList) (lowerStr "Doe".toList)
          (stripwww "Example.com".toList)
    ∧ (generate_candidates "John".toList "Doe".toList "Example.com".toList).length = 12 :=
  ⟨(C1_generator_amended "John".toList "Doe".toList "Example.com".toList
      (by decide) (by decide) (by decide)).1,
   (C1_generator_amended "John".toList "Doe".toList "Example.com".toList
      (by decide) (by decide) (by decide)).2.1⟩

/-! ### Claim C2 -/

/-- C2: the cascade never invokes the SMTP probe when the syntax check fails
or when the MX check finds no MX records — in both cases the returned report
has `smtp = "Not attempted"` and the later-stage fields keep their initial
values, and the probe-invoked flag is `false`. -/
theorem C2_cascade_not_attempted (e : CascadeEnv) :
    (e.synOk = false →
      verify_email e
        = ({ syn := false, mx_record := false, smtp := .str "Not attempted".toList }, false))
    ∧ (e.synOk = true → e.mxOk = false →
      verify_email e
        = ({ syn := true, mx_record := false, smtp := .str "Not attempted".toList }, false)) := by
  constructor
  · intro h
    simp [verify_email, h]
  · intro h1 h2
    simp [verify_email, h1, h2]

/-- C2 witness: the theorem applied at concrete cascade environments. -/
theorem C2_cascade_not_attempted_witness :
    verify_email ⟨false, true, .ok 250⟩
      = ({ syn := false, mx_record := false, smtp := .str "Not attempted".toList }, false)
    ∧ verify_email ⟨true, false, .ok 250⟩
      = ({ syn := true, mx_record := false, smtp := .str "Not attempted".toList }, false) :=
  ⟨(C2_cascade_not_attempted ⟨false, true, .ok 250⟩).1 rfl,
   (C2_cascade_not_attempted ⟨true, false, .ok 250⟩).2 rfl rfl⟩

/-! ### Claim C3 -/

/-- C3 counterexample: an exception during the probe yields the bare string
`"Error"`; the exception's detail is not carried in the returned value (it is
not even a substring of it). -/
theorem C3_counterexample :
    verify_smtp (.exc "connection timed out".toList) = .str "Error".toList
    ∧ ¬ ("connection timed out".toList <:+: "Error".toList) :=
  ⟨rfl, by decide⟩

/-- C3 (amended): `verify_smtp` maps RCPT code 250 to `True`, codes 550 and
553 to `False`, any other code to `"Inconclusive"`, and any
connection/protocol exception to the bare string `"Error"` — the exception's
detail is only logged, not returned. -/
theorem C3_smtp_mapping_amended :
    verify_smtp (.ok 250) = .bool true
    ∧ verify_smtp (.ok 550) = .bool false
    ∧ verify_smtp (.ok 553) = .bool false
    ∧ (∀ code, code ≠ 250 → code ≠ 550 → code ≠ 553 →
        verify_smtp (.ok code) = .str "Inconclusive".toList)
    ∧ (∀ detail, verify_smtp (.exc detail) = .str "Error".toList) := by
  refine ⟨rfl, rfl, rfl, ?_, fun _ => rfl⟩
  intro code h1 h2 h3
  simp [verify_smtp, h1, h2, h3]

/-- C3 witness: the amended theorem applied at RCPT code 450. -/
theorem C3_smtp_mapping_amended_witness :
    verify_smtp (.ok 450) = .str "Inconclusive".toList :=
  C3_smtp_mapping_amended.2.2.2.1 450 (by decide) (by decide) (by decide)

/-! ### Claim C4 -/

/-- C4: for every input list of N candidates, each backend of the batch
runner produces exactly N reports keyed in one-to-one correspondence with the
input candidates (the mapped email column equals the input list), and a
candidate whose verification raises does not abort the batch: its own report
carries the error outcome (`{'error': msg}` for the cascade pool, `None` for
the Kickbox and BrightData backends) while every other candidate still gets a
report. -/
theorem C4_batch_invariant (co : Str → Except Str CascadeEnv) (ke : Str → KickboxEnv)
    (be : Str → BrightEnv) (first_name last_name : Str) (emails : List Str) :
    ((runBatchCascade co emails).map Report.email = emails)
    ∧ ((runBatchKickbox ke emails).map Report.email = emails)
    ∧ ((runBatchBrightdata be first_name last_name emails).map Report.email = emails)
    ∧ (∀ i msg (h : i < emails.length) (h2 : i < (runBatchCascade co emails).length),
        co (emails.get ⟨i, h⟩) = .error msg →
        ((runBatchCascade co emails).get ⟨i, h2⟩).verification = .cascadeError msg)
    ∧ (∀ i d (h : i < emails.length) (h2 : i < (runBatchKickbox ke emails).length),
        ke (emails.get ⟨i, h⟩) = ⟨true, .exc d⟩ →
        ((runBatchKickbox ke emails).get ⟨i, h2⟩).verification = .kickbox none)
    ∧ (∀ i d (h : i < emails.length)
          (h2 : i < (runBatchBrightdata be first_name last_name emails).length),
        be (emails.get ⟨i, h⟩) = ⟨true, fun _ => .exc d⟩ →
        ((runBatchBrightdata be first_name last_name emails).get ⟨i, h2⟩).verification
          = .brightdata none) := by
  refine ⟨?_, ?_, ?_, ?_, ?_, ?_⟩
  · rw [runBatchCascade, List.map_map]
    exact List.map_id _
  · rw [runBatchKickbox, List.map_map]
    exact List.map_id _
  · rw [runBatchBrightdata, List.map_map]
    exact List.map_id _
  · intro i msg h h2 hco
    simp only [runBatchCascade, List.get_map]
    rw [hco]
  · intro i d h h2 hke
    simp only [runBatchKickbox, List.get_map]
    rw [hke]
    rfl
  · intro i d h h2 hbe
    simp only [runBatchBrightdata, List.get_map]
    rw [hbe]
    rfl

/-- C4 witness: the theorem applied to a concrete two-candidate batch whose
first candidate errors under each backend. -/
theorem C4_batch_invariant_witness :
    ((runBatchCascade (fun _ => .error "boom".toList)
        ["a@x.com".toList, "b@x.com".toList]).get ⟨0, by decide⟩).verification
      = .cascadeError "boom".toList
    ∧ (runBatchCascade (fun _ => .error "boom".toList)
        ["a@x.com".toList, "b@x.com".toList]).map Report.email
      = ["a@x.com".toList, "b@x.com".toList] := by
  have h := C4_batch_invariant (fun _ => .error "boom".toList)
    (fun _ => ⟨true, .exc "boom".toList⟩) (fun _ => ⟨true, fun _ => .exc "boom".toList⟩)
    "Ann".toList "Lee".toList ["a@x.com".toList, "b@x.com".toList]
  exact ⟨h.2.2.2.1 0 "boom".toList (by decide) (by decide) rfl, h.1⟩

/-! ### Claim C5 -/

/-- C5 counterexample: a non-2xx response (status 500) whose body is
well-formed JSON is not treated as an Error — `verify_email_kickbox` builds a
normal report from the payload, and when the payload says `"undeliverable"`
the non-2xx response even yields the Fail outcome. -/
theorem C5_counterexample :
    verify_email_kickbox
      { hasApiKey := true
      , http := .resp 500 (some
          { result := some "undeliverable".toList, reason := none, did_you_mean := none
          , success := none, disposable := none, accept_all := none
          , role := none, free := none, sendex := none }) }
      = some { result := some "undeliverable".toList, reason := none, did_you_mean := none
             , success := false, disposable := false, accept_all := false
             , role := false, free := false, score := 0 } := rfl

/-- C5 (amended): any exception during the request and any malformed
(non-JSON) payload yields the Error outcome (`None`); but the HTTP status
code is never inspected, so a non-2xx response with a well-formed JSON
payload is processed exactly like a 2xx response with the same payload. -/
theorem C5_kickbox_amended :
    (∀ d, verify_email_kickbox { hasApiKey := true, http := .exc d } = none)
    ∧ (∀ s, verify_email_kickbox { hasApiKey := true, http := .resp s none } = none)
    ∧ (∀ s1 s2 b, verify_email_kickbox { hasApiKey := true, http := .resp s1 b }
        = verify_email_kickbox { hasApiKey := true, http := .resp s2 b }) :=
  ⟨fun _ => rfl, fun _ => rfl, fun _ _ b => by cases b <;> rfl⟩

/-! ### Claim C6 -/

/-- When the first query of the loop returns HTTP 200 with a non-empty block
list and scanning those blocks yields at least one genuine match, the loop
breaks immediately: only that query was issued. -/
theorem runQueries_break (env : BrightEnv) (email q lastUrl : Str) (rest : List Str)
    (acc : List MatchInfo) (blocks : List SerpBlock)
    (hresp : env.respond q = .http 200 blocks)
    (hblocks : blocks.isEmpty = false)
    (hmatch : (processBlocks email q (searchUrl q) blocks acc).isEmpty = false) :
    runQueries env email (q :: rest) acc lastUrl
      = ([q], some (processBlocks email q (searchUrl q) blocks acc, searchUrl q)) := by
  unfold runQueries
  rw [hresp]
  simp [hblocks, hmatch]

/-- C6: in the search-corroboration backend, if the first query (the exact
email string) yields at least one genuine match, the second query (full name
plus email string) is never issued: the list of issued queries is exactly
the first query. -/
theorem C6_short_circuit (env : BrightEnv) (first_name last_name email : Str)
    (blocks : List SerpBlock)
    (hkey : env.hasApiKey = true)
    (hresp : env.respond (brightQuery1 email) = .http 200 blocks)
    (hblocks : blocks.isEmpty = false)
    (hmatch : (processBlocks email (brightQuery1 email) (searchUrl (brightQuery1 email))
        blocks []).isEmpty = false) :
    (verify_email_brightdata env first_name last_name email).2 = [brightQuery1 email] := by
  unfold verify_email_brightdata
  rw [hkey]
  simp only [Bool.true_eq_false, if_false]
  rw [runQueries_break env email (brightQuery1 email) (searchUrl (brightQuery1 email))
    [brightQuery2 first_name last_name email] [] blocks hresp hblocks hmatch]

/-- C6 witness: the theorem applied to a concrete environment in which the
first query returns one result block containing the email. -/
theorem C6_short_circuit_witness :
    (verify_email_brightdata
      { hasApiKey := true
      , respond := fun q =>
          if q = brightQuery1 "e@x.com".toList
          then .http 200 [{ text := "mail e@x.com here".toList, title := none, url := none }]
          else .exc "net down".toList }
      "Ann".toList "Lee".toList "e@x.com".toList).2
      = [brightQuery1 "e@x.com".toList] :=
  C6_short_circuit _ _ _ _ [{ text := "mail e@x.com here".toList, title := none, url := none }]
    rfl (by rfl) rfl (by rfl)

/-! ### Claim C7 -/

/-- If no pattern family matches the text, the matcher returns `none`, and
conversely. -/
theorem firstMatch_none_iff (text : Str) (ps : List (List PatItem)) :
    firstMatch text ps = none ↔ ∀ p ∈ ps, reSearch p text = none := by
  induction ps with
  | nil => simp [firstMatch]
  | cons p rest ih =>
    cases hs : reSearch p text with
    | some im =>
      simp only [firstMatch, hs]
      constructor
      · intro h
        exact absurd h (by simp)
      · intro h
        have hp := h p (by simp)
        rw [hs] at hp
        exact absurd hp (by simp)
    | none =>
      simp only [firstMatch, hs]
      rw [ih]
      constructor
      · intro h p2 hp2
        rcases List.mem_cons.mp hp2 with rfl | hmem
        · exact hs
        · exact h p2 hmem
      · intro h p2 hp2
        exact h p2 (List.mem_cons_of_mem _ hp2)

/-- A returned match comes from the first family, in list order, whose
search succeeds, and its matched text is the slice of the original text that
the search consumed. -/
theorem firstMatch_some (text : Str) (ps : List (List PatItem)) (r : MatchResult)
    (h : firstMatch text ps = some r) :
    ∃ pre post i m, ps = pre ++ r.pattern :: post
      ∧ (∀ p ∈ pre, reSearch p text = none)
      ∧ reSearch r.pattern text = some (i, m)
      ∧ r.matched_text = (text.drop i).take m := by
  induction ps with
  | nil => simp [firstMatch] at h
  | cons p rest ih =>
    cases hs : reSearch p text with
    | some im =>
      rw [firstMatch, hs] at h
      obtain ⟨i, m⟩ := im
      have hr : r = { pattern := p, matched_text := (text.drop i).take m } :=
        (Option.some.injEq _ _).mp h.symm
      subst hr
      exact ⟨[], rest, i, m, by simp, by simp, hs, rfl⟩
    | none =>
      rw [firstMatch, hs] at h
      obtain ⟨pre, post, i, m, hps, hpre, hrs, hm⟩ := ih h
      refine ⟨p :: pre, post, i, m, by simp [hps], ?_, hrs, hm⟩
      intro p2 hp2
      rcases List.mem_cons.mp hp2 with rfl | hmem
      · exact hs
      · exact hpre p2 hmem

/-- On well-formed inputs, `check_for_email_variants` is the first-match scan
of the five families built from the split email and the names. -/
theorem check_eq_firstMatch (text email first_name last_name loc domain : Str)
    (f0 : Char) (ftl : Str)
    (hsplit : pySplit '@' email = [loc, domain]) (hfn : first_name = f0 :: ftl) :
    check_for_email_variants text email first_name last_name
      = .ok (firstMatch text
          (variantPatterns email loc domain (rpartitionDot domain).1 (rpartitionDot domain).2
            first_name last_name f0)) := by
  subst hfn
  unfold check_for_email_variants
  rw [hsplit]

/-- C7: the obfuscation matcher tries its five pattern families in the fixed
source order with case-insensitive matching, returning the first family that
matches together with the matched text, and nothing when no family matches.
Concretely: for text `"contact j.doe [at] example.com for info"` and email
`"j.doe@example.com"` it fires the basic-obfuscation family
(local-part, `\s*`, @-variant, `\s*`, domain) on `"j.doe [at] example.com"`;
for a text with no mention of the email or its name-derived variants it
returns no match.  In general the result is `none` iff every family fails,
and a returned match names the first family in order whose search succeeds,
with the matched slice of the text. -/
theorem C7_matcher :
    (check_for_email_variants "contact j.doe [at] example.com for info".toList
        "j.doe@example.com".toList "jane".toList "doe".toList
      = .ok (some { pattern := [ .lit "j.doe".toList, .ws, atAlt, .ws, .lit "example.com".toList ]
                  , matched_text := "j.doe [at] example.com".toList }))
    ∧ (check_for_email_variants "nothing to see here".toList
        "j.doe@example.com".toList "jane".toList "doe".toList = .ok none)
    ∧ (∀ text email first_name last_name loc domain f0 ftl,
        pySplit '@' email = [loc, domain] → first_name = f0 :: ftl →
        (check_for_email_variants text email first_name last_name = .ok none ↔
          ∀ p ∈ variantPatterns email loc domain (rpartitionDot domain).1
              (rpartitionDot domain).2 first_name last_name f0,
            reSearch p text = none)
        ∧ ∀ r, check_for_email_variants text email first_name last_name = .ok (some r) →
            ∃ pre post i m,
              variantPatterns email loc domain (rpartitionDot domain).1
                (rpartitionDot domain).2 first_name last_name f0
                = pre ++ r.pattern :: post
              ∧ (∀ p ∈ pre, reSearch p text = none)
              ∧ reSearch r.pattern text = some (i, m)
              ∧ r.matched_text = (text.drop i).take m) := by
  refine ⟨by rfl, by rfl, ?_⟩
  intro text email first_name last_name loc domain f0 ftl hsplit hfn
  have heq := check_eq_firstMatch text email first_name last_name loc domain f0 ftl hsplit hfn
  constructor
  · rw [heq]
    simp only [Except.ok.injEq]
    exact firstMatch_none_iff text _
  · intro r hr
    rw [heq] at hr
    simp only [Except.ok.injEq] at hr
    exact firstMatch_some text _ r hr

/-- C7 witness: the general conjunct applied at a concrete input, showing in
particular that the exact-email family fails on the no-mention text. -/
theorem C7_matcher_witness :
    check_for_email_variants "nothing to see here".toList "j.doe@example.com".toList
        "jane".toList "doe".toList = .ok none
    ∧ reSearch [PatItem.lit "j.doe@example.com".toList] "nothing to see here".toList = none := by
  have h := C7_matcher
  have hgen := (h.2.2 "nothing to see here".toList "j.doe@example.com".toList "jane".toList
    "doe".toList "j.doe".toList "example.com".toList 'j' "ane".toList (by rfl) rfl).1
  refine ⟨h.2.1, ?_⟩
  exact (hgen.mp h.2.1) [PatItem.lit "j.doe@example.com".toList] (by simp [variantPatterns])

/-! ### Claim C8 -/

/-- C8: when the first name, the last name, or the domain is empty, the
generator returns an empty sequence (no candidates and no reports) and no
error. -/
theorem C8_empty_inputs (env : BatchEnv) (first_name last_name domain : Str) (uk ub : Bool)
    (h : first_name = [] ∨ last_name = [] ∨ domain = []) :
    generate_candidates first_name last_name domain = []
    ∧ generate_email_permutations env first_name last_name domain uk ub = [] := by
  have hc : generate_candidates first_name last_name domain = [] := by
    rcases h with rfl | rfl | rfl <;> simp [generate_candidates]
  refine ⟨hc, ?_⟩
  unfold generate_email_permutations
  rw [hc]
  cases ub <;> cases uk <;>
    simp [runBatchCascade, runBatchKickbox, runBatchBrightdata]

/-- C8 witness: the theorem applied at an empty first name. -/
theorem C8_empty_inputs_witness :
    generate_email_permutations
      ⟨fun _ => Except.error [], fun _ => ⟨false, .exc []⟩, fun _ => ⟨false, fun _ => .exc []⟩⟩
      [] "Doe".toList "x.com".toList false false = [] :=
  (C8_empty_inputs _ [] "Doe".toList "x.com".toList false false (Or.inl rfl)).2

/-! ### Claim C9 -/

/-- C9: under every backend selection, the batch output reports appear in
exactly the same order as the generated candidate list — the email column of
the output equals the candidate list. -/
theorem C9_order_preserved (env : BatchEnv) (first_name last_name domain : Str)
    (uk ub : Bool)
    (_hf : first_name ≠ []) (_hl : last_name ≠ []) (_hd : domain ≠ []) :
    (generate_email_permutations env first_name last_name domain uk ub).map Report.email
      = generate_candidates first_name last_name domain := by
  unfold generate_email_permutations
  cases ub <;> cases uk <;>
    simp only [if_true, if_false, Bool.false_eq_true, runBatchCascade, runBatchKickbox,
      runBatchBrightdata, List.map_map] <;>
    exact List.map_id _

/-- C9 witness: the theorem applied at a concrete input under the cascade
backend. -/
theorem C9_order_preserved_witness :
    (generate_email_permutations
      ⟨fun _ => Except.error [], fun _ => ⟨false, .exc []⟩, fun _ => ⟨false, fun _ => .exc []⟩⟩
      "Jo".toList "Do".toList "x.com".toList false false).map Report.email
      = generate_candidates "Jo".toList "Do".toList "x.com".toList :=
  C9_order_preserved _ "Jo".toList "Do".toList "x.com".toList false false
    (by decide) (by decide) (by decide)

/-! ### Claim C10 -/

/-- `pySplit` produces one more part than there are separator occurrences. -/
theorem pySplit_length (sep : Char) (s : Str) :
    (pySplit sep s).length = s.count sep + 1 := by
  induction s with
  | nil => simp [pySplit]
  | cons c rest ih =>
    simp only [pySplit]
    by_cases h : c = sep
    · simp [h, List.count_cons, ih]
    · cases hps : pySplit sep rest with
      | nil =>
        rw [hps] at ih
        simp at ih
      | cons p ps =>
        rw [hps] at ih
        simp only [List.length_cons] at ih
        simp [h, hps, List.count_cons, ih]

/-- C10 counterexample: an email containing more than one `'@'` also raises
(`ValueError` from unpacking the three-way split), refuting the claimed
precondition "at least one `'@'`". -/
theorem C10_counterexample :
    check_for_email_variants "t".toList "a@b@c.com".toList "x".toList "y".toList
      = .error .valueError := rfl

/-- C10 (amended): `check_for_email_variants` returns without error exactly
when the email contains exactly one `'@'` and the first name is non-empty;
an email whose `'@'`-count differs from one raises `ValueError`, and with
exactly one `'@'` but an empty first name it raises `IndexError`. -/
theorem C10_precondition_amended (text email first_name last_name : Str) :
    (email.count '@' = 1 → first_name ≠ [] →
      (check_for_email_variants text email first_name last_name).isOk = true)
    ∧ (email.count '@' ≠ 1 →
      check_for_email_variants text email first_name last_name = .error .valueError)
    ∧ (email.count '@' = 1 → first_name = [] →
      check_for_email_variants text email first_name last_name = .error .indexError) := by
  refine ⟨?_, ?_, ?_⟩
  · intro hcount hfn
    have hlen := pySplit_length '@' email
    rw [hcount] at hlen
    match hps : pySplit '@' email with
    | [a, b] =>
      unfold check_for_email_variants
      rw [hps]
      match first_name, hfn with
      | f0 :: ftl, _ => rfl
    | [] => rw [hps] at hlen; simp at hlen
    | [a] => rw [hps] at hlen; simp at hlen
    | a :: b :: c :: t => rw [hps] at hlen; simp at hlen
  · intro hcount
    have hlen := pySplit_length '@' email
    match hps : pySplit '@' email with
    | [] => unfold check_for_email_variants; rw [hps]
    | [a] => unfold check_for_email_variants; rw [hps]
    | [a, b] =>
      rw [hps] at hlen
      simp only [List.length_cons, List.length_nil] at hlen
      omega
    | a :: b :: c :: t => unfold check_for_email_variants; rw [hps]
  · intro hcount hfn
    subst hfn
    have hlen := pySplit_length '@' email
    rw [hcount] at hlen
    match hps : pySplit '@' email with
    | [a, b] =>
      unfold check_for_email_variants
      rw [hps]
    | [] => rw [hps] at hlen; simp at hlen
    | [a] => rw [hps] at hlen; simp at hlen
    | a :: b :: c :: t => rw [hps] at hlen; simp at hlen

/-- C10 witness: the amended theorem applied at concrete inputs for each of
the three cases. -/
theorem C10_precondition_amended_witness :
    (check_for_email_variants "t".toList "a@b.com".toList "x".toList "y".toList).isOk = true
    ∧ check_for_email_variants "t".toList "nodomain".toList "x".toList "y".toList
        = .error .valueError
    ∧ check_for_email_variants "t".toList "a@b.com".toList [] "y".toList
        = .error .indexError :=
  ⟨(C10_precondition_amended "t".toList "a@b.com".toList "x".toList "y".toList).1
      (by decide) (by decide),
   (C10_precondition_amended "t".toList "nodomain".toList "x".toList "y".toList).2.1
      (by decide),
   (C10_precondition_amended "t".toList "a@b.com".toList [] "y".toList).2.2
      (by decide) rfl⟩
